import Mathlib

/-!
Shallow embedding of the replica execution core of rDSN
(`src/replica/replica.cpp`) together with the restore-seeding behaviour
exercised by `src/meta/test/server_state_restore_test.cpp`.

Definitions mirror the C++ source; fatal assertions (`dassert`,
`dassert_replica`, `dcheck_eq`) are modelled as an explicit flag or as a
boolean check that is `true` exactly when the assertion does not fire.
-/

/-- Error codes used by the modelled paths. -/
inductive ErrorCode
  | ERR_OK
  | ERR_ACL_DENY
  | ERR_INVALID_STATE
  | ERR_BUSY
  | ERR_SPLITTING
  | ERR_FILE_OPERATION_FAILED
deriving DecidableEq, Repr

/-- `partition_status` of a replica (the six statuses dispatched on in
`replica::execute_mutation`). -/
inductive partition_status
  | PS_INACTIVE
  | PS_PRIMARY
  | PS_SECONDARY
  | PS_POTENTIAL_SECONDARY
  | PS_PARTITION_SPLIT
  | PS_ERROR
deriving DecidableEq, Repr

/-- `learner_status` of a potential secondary. -/
inductive learner_status
  | LearningWithoutPrepare
  | LearningWithPrepareTransient
  | LearningWithPrepare
  | LearningSucceeded
  | LearningFailed
deriving DecidableEq, Repr

/-- Modelled from the spec: the `disk_migration_status` enum declaration is not
under src/ (only its use in `replica::close` is); the spec gives the order
`IDLE | MOVING | MOVED | CLOSED`. -/
inductive disk_migration_status
  | IDLE
  | MOVING
  | MOVED
  | CLOSED
deriving DecidableEq, Repr

/-- Underlying integer of a `disk_migration_status` value, for the `>=`
comparison in `replica::close`. -/
def disk_migration_status.rank : disk_migration_status → Nat
  | .IDLE => 0
  | .MOVING => 1
  | .MOVED => 2
  | .CLOSED => 3

/-- The decree counters visible to `replica::check_state_completeness`:
`last_durable_decree()` and `last_flushed_decree()` delegate to the app,
`last_committed_decree()` is the app's committed decree, and
`max_prepared_decree()` comes from the prepare list. -/
structure ReplicaDecrees where
  last_durable_decree : Int
  last_flushed_decree : Int
  app_last_committed_decree : Int
  max_prepared_decree : Int
deriving DecidableEq, Repr

/-- `replica::check_state_completeness`: returns `true` exactly when neither of
its two `dassert`s fires.  The source asserts
`max_prepared_decree() >= last_committed_decree()` and
`last_committed_decree() >= last_durable_decree()`; nothing is asserted about
`last_flushed_decree()`. -/
def check_state_completeness (s : ReplicaDecrees) : Bool :=
  decide (s.app_last_committed_decree ≤ s.max_prepared_decree) &&
  decide (s.last_durable_decree ≤ s.app_last_committed_decree)

/-- The full decree chain claimed by the spec, including the middle
inequalities through `last_flushed_decree`. -/
def FullDecreeChain (s : ReplicaDecrees) : Prop :=
  s.last_durable_decree ≤ s.last_flushed_decree ∧
  s.last_flushed_decree ≤ s.app_last_committed_decree ∧
  s.app_last_committed_decree ≤ s.max_prepared_decree

/-- A concrete decree state: both completeness assertions pass while
`last_flushed_decree` exceeds `last_committed_decree`. -/
def flushedGapState : ReplicaDecrees :=
  { last_durable_decree := 0
    last_flushed_decree := 100
    app_last_committed_decree := 5
    max_prepared_decree := 5 }

/-- The state observed by the entry assertion of `replica::close`. -/
structure CloseState where
  status : partition_status
  migration : disk_migration_status
deriving DecidableEq, Repr

/-- The `dassert_replica` condition at the entry of `replica::close`, written
as in the source: `status() == PS_ERROR || status() == PS_INACTIVE ||
_disk_migrator->status() >= disk_migration_status::MOVED`.  The assertion
fires exactly when this is `false`. -/
def close_entry_assert_ok (s : CloseState) : Bool :=
  (s.status == partition_status.PS_ERROR) ||
  (s.status == partition_status.PS_INACTIVE) ||
  decide (disk_migration_status.MOVED.rank ≤ s.migration.rank)

/-- `manual_compaction_status` values. -/
inductive manual_compaction_status
  | kIdle
  | kQueuing
  | kRunning
  | kFinished
deriving DecidableEq, Repr

/-- Boolean test that `pat` is an initial segment of `hay`
(`std::string`-style character-by-character comparison). -/
def leadsWith : List Char → List Char → Bool
  | [], _ => true
  | _ :: _, [] => false
  | p :: ps, h :: hs => (p == h) && leadsWith ps hs

/-- Boolean substring search over character lists, modelling
`std::string::find(pat) != npos`. -/
def containsSub : List Char → List Char → Bool
  | [], pat => leadsWith pat []
  | h :: t, pat => leadsWith pat (h :: t) || containsSub t pat

/-- Boolean substring test on strings. -/
def strContains (hay pat : String) : Bool :=
  containsSub hay.toList pat.toList

/-- Propositional statement that `pat` occurs as a contiguous substring of
`hay`. -/
def ContainsSub (hay pat : String) : Prop :=
  ∃ pre post, hay.toList = pre ++ (pat.toList ++ post)

/-- `replica::get_manual_compact_status`, as a function of the compaction
state string returned by `query_manual_compact_state`. -/
def get_manual_compact_status (compact_state : String) : manual_compaction_status :=
  if strContains compact_state "recent start at" then
    manual_compaction_status.kRunning
  else if strContains compact_state "recent enqueue at" then
    manual_compaction_status.kQueuing
  else if strContains compact_state "last used" then
    manual_compaction_status.kFinished
  else
    manual_compaction_status.kIdle

/-- A mutation as seen by `replica::execute_mutation`: only the decree from
`mu->data.header` matters on this path. -/
structure ExecMutation where
  ballot : Int
  decree : Int

/-- Replica state read by `replica::execute_mutation`.  `apply_result` is the
oracle for the external storage engine: the error code `_app->apply_mutation`
would return at a given decree. -/
structure ExecState where
  status : partition_status
  decrees : ReplicaDecrees
  checkpoint_is_running : Bool
  learning_status : learner_status
  split_caught_up : Bool
  private_log_present : Bool
  apply_result : Int → ErrorCode

/-- Observable outcome of one `execute_mutation` call.  `assertFailed` records
a fired `dassert`/`dcheck_eq` (fatal); `localFailure` records a call to
`handle_local_failure`.  Per the app contract, a successful apply advances
`app.last_committed_decree` to the mutation decree, and `handle_local_failure`
moves the replica to `PS_ERROR`. -/
structure ExecResult where
  applied : Bool
  assertFailed : Bool
  localFailure : Bool
  appLastCommitted : Int
  status : partition_status
deriving DecidableEq, Repr

/-- Outcome of a fired assertion inside `execute_mutation`. -/
def fatalResult (s : ExecState) : ExecResult :=
  { applied := false
    assertFailed := true
    localFailure := false
    appLastCommitted := s.decrees.app_last_committed_decree
    status := s.status }

/-- The tail of `execute_mutation` after the role switch: `err != ERR_OK`
invokes `handle_local_failure`. -/
def finishExec (s : ExecState) (d : Int) (err : ErrorCode) (applied : Bool) : ExecResult :=
  { applied := applied
    assertFailed := false
    localFailure := if err = ErrorCode.ERR_OK then false else true
    appLastCommitted :=
      if applied = true ∧ err = ErrorCode.ERR_OK then d
      else s.decrees.app_last_committed_decree
    status := if err = ErrorCode.ERR_OK then s.status else partition_status.PS_ERROR }

/-- `replica::execute_mutation`, role switch faithful to the source:
INACTIVE applies iff the decree is contiguous and otherwise skips; PRIMARY
runs `check_state_completeness` then asserts contiguity; SECONDARY applies
under the same assertions unless a checkpoint is running, in which case it
skips (asserting the private log exists); POTENTIAL_SECONDARY applies only
when learning has reached `LearningSucceeded` or
`LearningWithPrepareTransient`; PARTITION_SPLIT applies only when caught up;
ERROR drops. -/
def execute_mutation (s : ExecState) (mu : ExecMutation) : ExecResult :=
  let d := mu.decree
  match s.status with
  | partition_status.PS_INACTIVE =>
    if s.decrees.app_last_committed_decree + 1 = d then
      finishExec s d (s.apply_result d) true
    else
      finishExec s d ErrorCode.ERR_OK false
  | partition_status.PS_PRIMARY =>
    if check_state_completeness s.decrees = false then fatalResult s
    else if s.decrees.app_last_committed_decree + 1 = d then
      finishExec s d (s.apply_result d) true
    else fatalResult s
  | partition_status.PS_SECONDARY =>
    if s.checkpoint_is_running = false then
      if check_state_completeness s.decrees = false then fatalResult s
      else if s.decrees.app_last_committed_decree + 1 = d then
        finishExec s d (s.apply_result d) true
      else fatalResult s
    else
      if s.private_log_present = true then finishExec s d ErrorCode.ERR_OK false
      else fatalResult s
  | partition_status.PS_POTENTIAL_SECONDARY =>
    if s.learning_status = learner_status.LearningSucceeded ∨
       s.learning_status = learner_status.LearningWithPrepareTransient then
      if s.decrees.app_last_committed_decree + 1 = d then
        finishExec s d (s.apply_result d) true
      else fatalResult s
    else
      if s.private_log_present = true then finishExec s d ErrorCode.ERR_OK false
      else fatalResult s
  | partition_status.PS_PARTITION_SPLIT =>
    if s.split_caught_up = true then
      if s.decrees.app_last_committed_decree + 1 = d then
        finishExec s d (s.apply_result d) true
      else fatalResult s
    else finishExec s d ErrorCode.ERR_OK false
  | partition_status.PS_ERROR =>
    finishExec s d ErrorCode.ERR_OK false

/-- An `execute_mutation` call was a no-op: no apply, no fired assertion, no
local failure, and the observable replica state is unchanged. -/
def isNoop (s : ExecState) (r : ExecResult) : Prop :=
  r.applied = false ∧ r.assertFailed = false ∧ r.localFailure = false ∧
  r.appLastCommitted = s.decrees.app_last_committed_decree ∧ r.status = s.status

/-- The role configurations whose `execute_mutation` branch skips the apply
(the silently-skipping arms of the switch). -/
def SkipBranch (s : ExecState) : Prop :=
  s.status = partition_status.PS_INACTIVE ∨
  s.status = partition_status.PS_ERROR ∨
  (s.status = partition_status.PS_SECONDARY ∧ s.checkpoint_is_running = true ∧
   s.private_log_present = true) ∨
  (s.status = partition_status.PS_POTENTIAL_SECONDARY ∧
   s.learning_status ≠ learner_status.LearningSucceeded ∧
   s.learning_status ≠ learner_status.LearningWithPrepareTransient ∧
   s.private_log_present = true) ∨
  (s.status = partition_status.PS_PARTITION_SPLIT ∧ s.split_caught_up = false)

/-- The role configurations whose `execute_mutation` branch reaches the
contiguity assertion and the apply. -/
def ApplyBranch (s : ExecState) : Prop :=
  s.status = partition_status.PS_PRIMARY ∨
  (s.status = partition_status.PS_SECONDARY ∧ s.checkpoint_is_running = false) ∨
  (s.status = partition_status.PS_POTENTIAL_SECONDARY ∧
   (s.learning_status = learner_status.LearningSucceeded ∨
    s.learning_status = learner_status.LearningWithPrepareTransient)) ∨
  (s.status = partition_status.PS_PARTITION_SPLIT ∧ s.split_caught_up = true)

/-- A primary at committed decree 5 with a healthy decree chain; used to
re-execute an already committed decree. -/
def stalePrimaryState : ExecState :=
  { status := partition_status.PS_PRIMARY
    decrees :=
      { last_durable_decree := 0
        last_flushed_decree := 3
        app_last_committed_decree := 5
        max_prepared_decree := 5 }
    checkpoint_is_running := false
    learning_status := learner_status.LearningFailed
    split_caught_up := false
    private_log_present := true
    apply_result := fun _ => ErrorCode.ERR_OK }

/-- A mutation at decree 3, below the committed decree of
`stalePrimaryState`. -/
def staleMutation : ExecMutation :=
  { ballot := 1, decree := 3 }

/-- The same stale re-execution on an INACTIVE replica. -/
def staleInactiveState : ExecState :=
  { stalePrimaryState with status := partition_status.PS_INACTIVE }

/-- An INACTIVE replica at committed decree 0 whose storage engine fails the
next apply. -/
def inactiveFailState : ExecState :=
  { status := partition_status.PS_INACTIVE
    decrees :=
      { last_durable_decree := 0
        last_flushed_decree := 0
        app_last_committed_decree := 0
        max_prepared_decree := 1 }
    checkpoint_is_running := false
    learning_status := learner_status.LearningFailed
    split_caught_up := false
    private_log_present := true
    apply_result := fun _ => ErrorCode.ERR_FILE_OPERATION_FAILED }

/-- The contiguous mutation at decree 1 for `inactiveFailState`. -/
def inactiveFailMutation : ExecMutation :=
  { ballot := 1, decree := 1 }

/-- Client-read request facts consulted by `replica::on_client_read`:
the access-controller verdict, whether the splitting guard intercepts the
request, and whether it is a backup request. -/
structure ReadRequest where
  allowed : Bool
  splitRejected : Bool
  is_backup : Bool
deriving DecidableEq, Repr

/-- Replica state read by `on_client_read`.  `throttled` is the oracle for
`throttle_read_request` (whose body is outside this file): `true` means the
throttler took ownership of the request. -/
structure ReadState where
  status : partition_status
  throttled : Bool
  last_committed_decree : Int
  last_prepare_decree_on_new_primary : Int
deriving DecidableEq, Repr

/-- What `on_client_read` did with the request. `replied e` is
`response_client_read(request, e)` (no app call); `splitHandled` means the
`CHECK_REQUEST_IF_SPLITTING` guard consumed the request (modelled from the
spec: the macro body is not under src/); `throttleHandled` means the
throttler owns the response; `served` is `_app->on_request(request)`. -/
inductive ReadAction
  | replied (e : ErrorCode)
  | splitHandled
  | throttleHandled
  | served
deriving DecidableEq, Repr

/-- Outcome of `on_client_read`: the action taken plus whether the
backup-request rate counter was incremented. -/
structure ReadResult where
  action : ReadAction
  backupCounterIncremented : Bool
deriving DecidableEq, Repr

/-- `replica::on_client_read`, control flow faithful to the source: access
control, splitting guard, INACTIVE/POTENTIAL_SECONDARY rejection, throttling,
then either the non-backup primary/staleness gate or the backup bypass. -/
def on_client_read (s : ReadState) (req : ReadRequest) (ignore_throttling : Bool) :
    ReadResult :=
  if req.allowed = false then
    { action := ReadAction.replied ErrorCode.ERR_ACL_DENY, backupCounterIncremented := false }
  else if req.splitRejected = true then
    { action := ReadAction.splitHandled, backupCounterIncremented := false }
  else if s.status = partition_status.PS_INACTIVE ∨
          s.status = partition_status.PS_POTENTIAL_SECONDARY then
    { action := ReadAction.replied ErrorCode.ERR_INVALID_STATE, backupCounterIncremented := false }
  else if ignore_throttling = false ∧ s.throttled = true then
    { action := ReadAction.throttleHandled, backupCounterIncremented := false }
  else if req.is_backup = false then
    if s.status ≠ partition_status.PS_PRIMARY then
      { action := ReadAction.replied ErrorCode.ERR_INVALID_STATE
        backupCounterIncremented := false }
    else if s.last_committed_decree < s.last_prepare_decree_on_new_primary then
      { action := ReadAction.replied ErrorCode.ERR_INVALID_STATE
        backupCounterIncremented := false }
    else
      { action := ReadAction.served, backupCounterIncremented := false }
  else
    { action := ReadAction.served, backupCounterIncremented := true }

/-- A stale-primary read state: committed decree 10 with
`last_prepare_decree_on_new_primary = 12`. -/
def stalePrimaryReadState : ReadState :=
  { status := partition_status.PS_PRIMARY
    throttled := false
    last_committed_decree := 10
    last_prepare_decree_on_new_primary := 12 }

/-- An admissible backup read request. -/
def backupReadRequest : ReadRequest :=
  { allowed := true, splitRejected := false, is_backup := true }

/-- An admissible non-backup read request. -/
def plainReadRequest : ReadRequest :=
  { allowed := true, splitRejected := false, is_backup := false }

/-- An INACTIVE read state. -/
def inactiveReadState : ReadState :=
  { status := partition_status.PS_INACTIVE
    throttled := true
    last_committed_decree := 0
    last_prepare_decree_on_new_primary := 0 }

/-- The fields of a prepare-list mutation read by
`replica::last_prepared_decree`: its header ballot and whether it has been
logged. -/
structure MuEntry where
  ballot : Int
  logged : Bool
deriving DecidableEq, Repr

/-- Lookup in the dense prepare-list window: `getFrom slots base d` is the
slot for decree `d`, where the list element at index `i` holds decree
`base + 1 + i`. -/
def getFrom : List (Option MuEntry) → Nat → Nat → Option MuEntry
  | [], _, _ => none
  | e :: rest, base, d => if d = base + 1 then e else getFrom rest (base + 1) d

/-- The loop of `replica::last_prepared_decree`: starting at `start` with
running ballot `lastBallot`, advance while the next slot is populated, its
ballot has not decreased, and it is logged. -/
def lpdWalk : List (Option MuEntry) → Int → Nat → Nat
  | [], _, start => start
  | none :: _, _, start => start
  | some mu :: rest, lastBallot, start =>
    if mu.ballot < lastBallot ∨ mu.logged = false then start
    else lpdWalk rest mu.ballot (start + 1)

/-- Replica state read by `last_prepared_decree`: the committed decree and
the prepare-list window above it (`slots` element `i` is the slot of decree
`last_committed_decree + 1 + i`). -/
structure PlistState where
  last_committed_decree : Nat
  slots : List (Option MuEntry)

/-- `prepare_list::get_mutation_by_decree` restricted to the window above the
committed decree. -/
def get_mutation_by_decree (s : PlistState) (d : Nat) : Option MuEntry :=
  getFrom s.slots s.last_committed_decree d

/-- `replica::last_prepared_decree`. -/
def last_prepared_decree (s : PlistState) : Nat :=
  lpdWalk s.slots 0 s.last_committed_decree

/-- Recursive form of the walk's success condition: every slot of the window
up to decree `d` is populated, logged, and ballot-non-decreasing from the
running lower bound `lb`. -/
def GoodFrom : List (Option MuEntry) → Int → Nat → Nat → Prop
  | [], _, start, d => d ≤ start
  | none :: _, _, start, d => d ≤ start
  | some mu :: rest, lb, start, d =>
    d ≤ start ∨ (lb ≤ mu.ballot ∧ mu.logged = true ∧ GoodFrom rest mu.ballot (start + 1) d)

/-- Pointwise form of the walk's success condition over `getFrom`: every
decree in `(start, d]` is populated and logged, the first slot's ballot is at
least `lb`, and ballots are non-decreasing between consecutive slots. -/
def ReachableFrom (slots : List (Option MuEntry)) (lb : Int) (start d : Nat) : Prop :=
  (∀ e, start < e → e ≤ d → ∃ m, getFrom slots start e = some m ∧ m.logged = true) ∧
  (∀ m, getFrom slots start (start + 1) = some m → start < d → lb ≤ m.ballot) ∧
  (∀ e m mm, start < e → e + 1 ≤ d → getFrom slots start e = some m →
    getFrom slots start (e + 1) = some mm → m.ballot ≤ mm.ballot)

/-- Claim-level predicate: decree `d` is within the safe replay horizon —
every slot over `(last_committed_decree, d]` is populated and logged, the
first slot's ballot is at least the initial lower bound 0, and ballots are
monotonically non-decreasing along increasing decree. -/
def SafeHorizon (s : PlistState) (d : Nat) : Prop :=
  (∀ e, s.last_committed_decree < e → e ≤ d →
    ∃ m, get_mutation_by_decree s e = some m ∧ m.logged = true) ∧
  (∀ m, get_mutation_by_decree s (s.last_committed_decree + 1) = some m →
    s.last_committed_decree < d → 0 ≤ m.ballot) ∧
  (∀ e m mm, s.last_committed_decree < e → e + 1 ≤ d →
    get_mutation_by_decree s e = some m →
    get_mutation_by_decree s (e + 1) = some mm → m.ballot ≤ mm.ballot)

/-- Constant, modelled from the spec: the exact value of
`backup_restore_constant::BLOCK_SERVICE_PROVIDER` is declared outside src/. -/
def BLOCK_SERVICE_PROVIDER : String := "block_service_provider"

/-- Constant, modelled from the spec (declared outside src/). -/
def CLUSTER_NAME : String := "cluster_name"

/-- Constant, modelled from the spec (declared outside src/). -/
def APP_NAME : String := "app_name"

/-- Constant, modelled from the spec (declared outside src/). -/
def APP_ID : String := "app_id"

/-- Constant, modelled from the spec (declared outside src/). -/
def BACKUP_ID : String := "backup_id"

/-- Constant, modelled from the spec (declared outside src/). -/
def RESTORE_PATH : String := "restore_path"

/-- `configuration_restore_request`: the fields of the `START_RESTORE` RPC;
`restore_path` is optional. -/
structure configuration_restore_request where
  app_id : Int
  app_name : String
  new_app_name : String
  time_stamp : Int
  cluster_name : String
  backup_provider_name : String
  restore_path : Option String

/-- App status values relevant to restore. -/
inductive app_status
  | AS_INVALID
  | AS_AVAILABLE
  | AS_CREATING
  | AS_DROPPING
  | AS_DROPPED
deriving DecidableEq, Repr

/-- An app record as produced by restore. -/
structure app_state where
  app_id : Int
  app_name : String
  status : app_status
  envs : List (String × String)

/-- The meta server state visible to restore: the monotone app-id
allocator. -/
structure server_state where
  next_app_id : Int

/-- Modelled from the spec: `server_state::restore_app_info` is implemented in
the meta server (not under src/; only its test is).  Per the spec, it replies
`ERR_OK` with a new app in status `CREATING`, named `req.new_app_name`, under
a fresh id from the meta's monotone allocator, whose env map is seeded with
`BLOCK_SERVICE_PROVIDER`, `CLUSTER_NAME`, `APP_NAME`, `APP_ID`,
`BACKUP_ID` (= `time_stamp`) and, exactly when provided, `RESTORE_PATH`. -/
def restore_app_info (ss : server_state) (req : configuration_restore_request)
    (snapshot : app_state) : ErrorCode × app_state :=
  (ErrorCode.ERR_OK,
   { app_id := ss.next_app_id
     app_name := req.new_app_name
     status := app_status.AS_CREATING
     envs :=
       [(BLOCK_SERVICE_PROVIDER, req.backup_provider_name),
        (CLUSTER_NAME, req.cluster_name),
        (APP_NAME, req.app_name),
        (APP_ID, toString req.app_id),
        (BACKUP_ID, toString req.time_stamp)] ++
       (match req.restore_path with
        | some p => [(RESTORE_PATH, p)]
        | none => []) })

/-!
Helper lemmas.
-/

theorem leadsWith_iff (pat : List Char) : ∀ (hay : List Char),
    leadsWith pat hay = true ↔ ∃ post, hay = pat ++ post := by
  induction pat with
  | nil =>
    intro hay
    simp [leadsWith]
  | cons p ps ih =>
    intro hay
    cases hay with
    | nil =>
      simp [leadsWith]
    | cons h hs =>
      simp only [leadsWith, Bool.and_eq_true, beq_iff_eq, ih hs, List.cons_append,
        List.cons.injEq]
      constructor
      · rintro ⟨rfl, post, rfl⟩
        exact ⟨post, rfl, rfl⟩
      · rintro ⟨post, rfl, rfl⟩
        exact ⟨rfl, post, rfl⟩

theorem containsSub_iff : ∀ (hay pat : List Char),
    containsSub hay pat = true ↔ ∃ pre post, hay = pre ++ (pat ++ post) := by
  intro hay
  induction hay with
  | nil =>
    intro pat
    simp only [containsSub, leadsWith_iff]
    constructor
    · rintro ⟨post, h⟩
      exact ⟨[], post, h⟩
    · rintro ⟨pre, post, h⟩
      rcases List.append_eq_nil.mp h.symm with ⟨rfl, h2⟩
      exact ⟨post, h2.symm⟩
  | cons h t ih =>
    intro pat
    simp only [containsSub, Bool.or_eq_true, leadsWith_iff, ih]
    constructor
    · rintro (⟨post, hp⟩ | ⟨pre, post, hp⟩)
      · exact ⟨[], post, by simpa using hp⟩
      · exact ⟨h :: pre, post, by simp [hp]⟩
    · rintro ⟨pre, post, hp⟩
      cases pre with
      | nil =>
        exact Or.inl ⟨post, by simpa using hp⟩
      | cons q qre =>
        rcases List.cons.injEq h t q (qre ++ (pat ++ post)) ▸ hp with ⟨rfl, ht⟩
        exact Or.inr ⟨qre, post, ht⟩

theorem strContains_iff (hay pat : String) :
    strContains hay pat = true ↔ ContainsSub hay pat := by
  rw [strContains, containsSub_iff]
  rfl

theorem lpdWalk_ge : ∀ (slots : List (Option MuEntry)) (lb : Int) (start : Nat),
    start ≤ lpdWalk slots lb start := by
  intro slots
  induction slots with
  | nil =>
    intro lb start
    simp [lpdWalk]
  | cons e rest ih =>
    intro lb start
    cases e with
    | none => simp [lpdWalk]
    | some mu =>
      simp only [lpdWalk]
      split
      · exact Nat.le_refl _
      · exact Nat.le_trans (Nat.le_succ start) (ih mu.ballot (start + 1))

theorem goodFrom_iff_le : ∀ (slots : List (Option MuEntry)) (lb : Int) (start d : Nat),
    GoodFrom slots lb start d ↔ d ≤ lpdWalk slots lb start := by
  intro slots
  induction slots with
  | nil =>
    intro lb start d
    simp [GoodFrom, lpdWalk]
  | cons x rest ih =>
    intro lb start d
    cases x with
    | none => simp [GoodFrom, lpdWalk]
    | some mu =>
      simp only [GoodFrom, lpdWalk]
      by_cases hc : mu.ballot < lb ∨ mu.logged = false
      · rw [if_pos hc]
        constructor
        · rintro (hd | ⟨hb, hl, -⟩)
          · exact hd
          · rcases hc with hc | hc
            · omega
            · rw [hl] at hc
              exact absurd hc (by simp)
        · exact Or.inl
      · rw [if_neg hc]
        push_neg at hc
        obtain ⟨hb, hl⟩ := hc
        replace hl : mu.logged = true := by simpa using hl
        have hw := lpdWalk_ge rest mu.ballot (start + 1)
        constructor
        · rintro (hd | ⟨-, -, hg⟩)
          · omega
          · exact (ih mu.ballot (start + 1) d).mp hg
        · intro hd
          exact Or.inr ⟨hb, hl, (ih mu.ballot (start + 1) d).mpr hd⟩

theorem reach_iff_good : ∀ (slots : List (Option MuEntry)) (lb : Int) (start d : Nat),
    ReachableFrom slots lb start d ↔ GoodFrom slots lb start d := by
  intro slots
  induction slots with
  | nil =>
    intro lb start d
    simp only [ReachableFrom, GoodFrom]
    constructor
    · rintro ⟨c1, -, -⟩
      by_contra hd
      push_neg at hd
      obtain ⟨m, hm, -⟩ := c1 (start + 1) (Nat.lt_succ_self start) hd
      simp [getFrom] at hm
    · intro hd
      refine ⟨?_, ?_, ?_⟩
      · intro e he1 he2
        omega
      · intro m hm hlt
        omega
      · intro e m mm he1 he2 hm hmm
        omega
  | cons x rest ih =>
    intro lb start d
    cases x with
    | none =>
      simp only [ReachableFrom, GoodFrom]
      constructor
      · rintro ⟨c1, -, -⟩
        by_contra hd
        push_neg at hd
        obtain ⟨m, hm, -⟩ := c1 (start + 1) (Nat.lt_succ_self start) hd
        simp [getFrom] at hm
      · intro hd
        refine ⟨?_, ?_, ?_⟩
        · intro e he1 he2
          omega
        · intro m hm hlt
          omega
        · intro e m mm he1 he2 hm hmm
          omega
    | some mu =>
      have hget1 : getFrom (some mu :: rest) start (start + 1) = some mu := by
        simp [getFrom]
      have hgetHi : ∀ e, start + 1 < e →
          getFrom (some mu :: rest) start e = getFrom rest (start + 1) e := by
        intro e he
        have hne : e ≠ start + 1 := by omega
        simp [getFrom, hne]
      simp only [ReachableFrom, GoodFrom]
      constructor
      · rintro ⟨c1, c2, c3⟩
        by_cases hd : d ≤ start
        · exact Or.inl hd
        · push_neg at hd
          refine Or.inr ⟨c2 mu hget1 hd, ?_, ?_⟩
          · obtain ⟨m, hm, hml⟩ := c1 (start + 1) (Nat.lt_succ_self start) hd
            rw [hget1] at hm
            cases hm
            exact hml
          · refine (ih mu.ballot (start + 1) d).mp ?_
            simp only [ReachableFrom]
            refine ⟨?_, ?_, ?_⟩
            · intro e he1 he2
              obtain ⟨m, hm, hml⟩ := c1 e (by omega) he2
              rw [hgetHi e he1] at hm
              exact ⟨m, hm, hml⟩
            · intro m hm hlt
              have h2 : getFrom (some mu :: rest) start (start + 1 + 1) = some m := by
                rw [hgetHi (start + 1 + 1) (by omega)]
                exact hm
              exact c3 (start + 1) mu m (Nat.lt_succ_self start) (by omega) hget1 h2
            · intro e m mm he1 he2 hm hmm
              have hm2 : getFrom (some mu :: rest) start e = some m :=
                (hgetHi e (by omega)).trans hm
              have hmm2 : getFrom (some mu :: rest) start (e + 1) = some mm :=
                (hgetHi (e + 1) (by omega)).trans hmm
              exact c3 e m mm (by omega) he2 hm2 hmm2
      · rintro (hd | ⟨hb, hl, hg⟩)
        · refine ⟨?_, ?_, ?_⟩
          · intro e he1 he2
            omega
          · intro m hm hlt
            omega
          · intro e m mm he1 he2 hm hmm
            omega
        · have hr := (ih mu.ballot (start + 1) d).mpr hg
          simp only [ReachableFrom] at hr
          obtain ⟨c1', c2', c3'⟩ := hr
          refine ⟨?_, ?_, ?_⟩
          · intro e he1 he2
            by_cases he : e = start + 1
            · subst he
              exact ⟨mu, hget1, hl⟩
            · have he' : start + 1 < e := by omega
              obtain ⟨m, hm, hml⟩ := c1' e he' he2
              exact ⟨m, (hgetHi e he').trans hm, hml⟩
          · intro m hm hlt
            rw [hget1] at hm
            cases hm
            exact hb
          · intro e m mm he1 he2 hm hmm
            by_cases he : e = start + 1
            · subst he
              rw [hget1] at hm
              cases hm
              have hmm2 : getFrom rest (start + 1) (start + 1 + 1) = some mm := by
                rw [← hgetHi (start + 1 + 1) (by omega)]
                exact hmm
              exact c2' mm hmm2 (by omega)
            · have he' : start + 1 < e := by omega
              have hm2 : getFrom rest (start + 1) e = some m := by
                rw [← hgetHi e he']
                exact hm
              have hmm2 : getFrom rest (start + 1) (e + 1) = some mm := by
                rw [← hgetHi (e + 1) (by omega)]
                exact hmm
              exact c3' e m mm he' he2 hm2 hmm2

theorem safeHorizon_iff_reach (s : PlistState) (d : Nat) :
    SafeHorizon s d ↔ ReachableFrom s.slots 0 s.last_committed_decree d :=
  Iff.rfl

/-!
Claim theorems.
-/

/-- C1: for every restore request and app-info snapshot, `restore_app_info`
returns `ERR_OK` and a new app whose env map is exactly
`{BLOCK_SERVICE_PROVIDER, CLUSTER_NAME, APP_NAME, APP_ID, BACKUP_ID}` seeded
from the request, plus `RESTORE_PATH` exactly when `restore_path` was set;
the new app is in status `CREATING`, named `req.new_app_name`, with the app
id captured from the meta allocator at entry. -/
theorem restore_seeds_env_exactly (ss : server_state)
    (req : configuration_restore_request) (snapshot : app_state) :
    (restore_app_info ss req snapshot).1 = ErrorCode.ERR_OK ∧
    (restore_app_info ss req snapshot).2.envs =
      [(BLOCK_SERVICE_PROVIDER, req.backup_provider_name),
       (CLUSTER_NAME, req.cluster_name),
       (APP_NAME, req.app_name),
       (APP_ID, toString req.app_id),
       (BACKUP_ID, toString req.time_stamp)] ++
      (match req.restore_path with
       | some p => [(RESTORE_PATH, p)]
       | none => []) ∧
    (restore_app_info ss req snapshot).2.envs.lookup RESTORE_PATH = req.restore_path ∧
    (restore_app_info ss req snapshot).2.status = app_status.AS_CREATING ∧
    (restore_app_info ss req snapshot).2.app_name = req.new_app_name ∧
    (restore_app_info ss req snapshot).2.app_id = ss.next_app_id := by
  refine ⟨rfl, rfl, ?_, rfl, rfl, rfl⟩
  cases hr : req.restore_path with
  | none =>
    simp [restore_app_info, hr, List.lookup, RESTORE_PATH, BLOCK_SERVICE_PROVIDER,
      CLUSTER_NAME, APP_NAME, APP_ID, BACKUP_ID]
  | some p =>
    simp [restore_app_info, hr, List.lookup, RESTORE_PATH, BLOCK_SERVICE_PROVIDER,
      CLUSTER_NAME, APP_NAME, APP_ID, BACKUP_ID]

/-- C6: `last_prepared_decree` returns the largest decree at or above
`last_committed_decree` whose whole prepare-list window is populated, logged,
and ballot-non-decreasing from the initial lower bound 0: a decree `d` is
within the safe horizon exactly when `d ≤ last_prepared_decree`, so the walk
stops at the first missing, unlogged, or ballot-decreasing slot. -/
theorem last_prepared_decree_characterization (s : PlistState) (d : Nat) :
    SafeHorizon s d ↔ d ≤ last_prepared_decree s :=
  (safeHorizon_iff_reach s d).trans
    ((reach_iff_good s.slots 0 s.last_committed_decree d).trans
      (goodFrom_iff_le s.slots 0 s.last_committed_decree d))

/-- C10: the safe replay horizon returned by `last_prepared_decree` never
lies below the committed prefix: the walk starts at `last_committed_decree`
and only ever increments. -/
theorem last_prepared_decree_ge_committed (s : PlistState) :
    s.last_committed_decree ≤ last_prepared_decree s :=
  lpdWalk_ge s.slots 0 s.last_committed_decree

/-- C7 counterexample: a decree state on which `check_state_completeness`
passes (neither assertion fires) while the full chain through
`last_flushed_decree` is violated, refuting the claim that the middle
inequality holds at every completeness check. -/
theorem completeness_check_ignores_flushed :
    check_state_completeness flushedGapState = true ∧ ¬ FullDecreeChain flushedGapState := by
  refine ⟨rfl, ?_⟩
  rintro ⟨-, h2, -⟩
  simp only [flushedGapState] at h2
  omega

/-- C7 amended: `check_state_completeness` passes exactly when
`last_durable_decree ≤ last_committed_decree ≤ max_prepared_decree`; the
inequalities involving `last_flushed_decree` are not checked. -/
theorem completeness_check_iff_outer_chain (s : ReplicaDecrees) :
    check_state_completeness s = true ↔
    (s.last_durable_decree ≤ s.app_last_committed_decree ∧
     s.app_last_committed_decree ≤ s.max_prepared_decree) := by
  simp only [check_state_completeness, Bool.and_eq_true, decide_eq_true_eq]
  exact and_comm

/-- C8: the entry assertion of `replica::close` passes exactly when the
replica status is INACTIVE or ERROR or the disk migration status is at least
MOVED; outside this precondition it fires, under it it never fires. -/
theorem close_entry_assert_iff_precondition (s : CloseState) :
    close_entry_assert_ok s = true ↔
    (s.status = partition_status.PS_INACTIVE ∨ s.status = partition_status.PS_ERROR ∨
     disk_migration_status.MOVED.rank ≤ s.migration.rank) := by
  cases s with
  | mk st mig => cases st <;> cases mig <;> decide

/-- C9: `get_manual_compact_status` maps a compaction state string to exactly
one status by substring priority: `kRunning` iff it contains
"recent start at"; else `kQueuing` iff it contains "recent enqueue at"; else
`kFinished` iff it contains "last used"; else `kIdle`. -/
theorem manual_compact_status_by_substring (s : String) :
    (get_manual_compact_status s = manual_compaction_status.kRunning ↔
      ContainsSub s "recent start at") ∧
    (get_manual_compact_status s = manual_compaction_status.kQueuing ↔
      (¬ ContainsSub s "recent start at" ∧ ContainsSub s "recent enqueue at")) ∧
    (get_manual_compact_status s = manual_compaction_status.kFinished ↔
      (¬ ContainsSub s "recent start at" ∧ ¬ ContainsSub s "recent enqueue at" ∧
       ContainsSub s "last used")) ∧
    (get_manual_compact_status s = manual_compaction_status.kIdle ↔
      (¬ ContainsSub s "recent start at" ∧ ¬ ContainsSub s "recent enqueue at" ∧
       ¬ ContainsSub s "last used")) := by
  have k1 := strContains_iff s "recent start at"
  have k2 := strContains_iff s "recent enqueue at"
  have k3 := strContains_iff s "last used"
  by_cases h1 : strContains s "recent start at" = true <;>
    by_cases h2 : strContains s "recent enqueue at" = true <;>
      by_cases h3 : strContains s "last used" = true <;>
        simp [get_manual_compact_status, h1, h2, h3, ← k1, ← k2, ← k3]

/-- C2 counterexample: re-executing an already-committed decree on a PRIMARY
replica is not a no-op — the decree-contiguity assertion fires (fatal),
refuting the claim that a commit attempt at `d ≤ app.last_committed` is a
no-op in every role. -/
theorem stale_commit_primary_not_noop :
    staleMutation.decree ≤ stalePrimaryState.decrees.app_last_committed_decree ∧
    ¬ isNoop stalePrimaryState (execute_mutation stalePrimaryState staleMutation) := by
  refine ⟨by decide, ?_⟩
  intro h
  simp only [isNoop] at h
  obtain ⟨-, h2, -⟩ := h
  have hT : (execute_mutation stalePrimaryState staleMutation).assertFailed = true := by
    decide
  rw [hT] at h2
  cases h2

/-- C2 amended: invoking `execute_mutation(mu)` with
`mu.decree ≤ app.last_committed_decree` is a no-op in the skip branches
(INACTIVE, ERROR, SECONDARY with a running checkpoint and a private log,
POTENTIAL_SECONDARY still learning with a private log, PARTITION_SPLIT not
caught up); in the apply branches (PRIMARY, SECONDARY without a running
checkpoint, POTENTIAL_SECONDARY with learning succeeded or prepare-transient,
PARTITION_SPLIT caught up) an entry assertion fires (fatal) instead. -/
theorem stale_commit_noop_in_skip_branches (s : ExecState) (mu : ExecMutation)
    (hstale : mu.decree ≤ s.decrees.app_last_committed_decree) :
    (SkipBranch s → isNoop s (execute_mutation s mu)) ∧
    (ApplyBranch s → (execute_mutation s mu).assertFailed = true) := by
  have hne : ¬ (s.decrees.app_last_committed_decree + 1 = mu.decree) := by omega
  constructor
  · intro hsk
    rcases hsk with h | h | ⟨h, hc, hl⟩ | ⟨h, hl1, hl2, hp⟩ | ⟨h, hc⟩
    · simp [execute_mutation, h, hne, finishExec, isNoop]
    · simp [execute_mutation, h, finishExec, isNoop]
    · simp [execute_mutation, h, hc, hl, finishExec, isNoop]
    · simp [execute_mutation, h, hl1, hl2, hp, finishExec, isNoop]
    · simp [execute_mutation, h, hc, finishExec, isNoop]
  · intro hap
    rcases hap with h | ⟨h, hc⟩ | ⟨h, hl⟩ | ⟨h, hc⟩
    · by_cases hcs : check_state_completeness s.decrees = false
      · simp [execute_mutation, h, hcs, fatalResult]
      · simp [execute_mutation, h, hcs, hne, fatalResult]
    · by_cases hcs : check_state_completeness s.decrees = false
      · simp [execute_mutation, h, hc, hcs, fatalResult]
      · simp [execute_mutation, h, hc, hcs, hne, fatalResult]
    · rcases hl with hl | hl
      · simp [execute_mutation, h, hl, hne, fatalResult]
      · simp [execute_mutation, h, hl, hne, fatalResult]
    · simp [execute_mutation, h, hc, hne, fatalResult]

/-- C2 witness: the amended no-op holds at a concrete INACTIVE replica with
committed decree 5 re-executing decree 3. -/
theorem stale_commit_noop_witness :
    staleMutation.decree ≤ staleInactiveState.decrees.app_last_committed_decree ∧
    isNoop staleInactiveState (execute_mutation staleInactiveState staleMutation) :=
  ⟨by decide,
   (stale_commit_noop_in_skip_branches staleInactiveState staleMutation (by decide)).1
     (Or.inl rfl)⟩

/-- C3 counterexample: on an INACTIVE replica with a contiguous decree whose
apply returns a non-OK error, `execute_mutation` invokes
`handle_local_failure` (moving the replica to ERROR), refuting the claim that
the INACTIVE case never fails the replica. -/
theorem inactive_apply_error_fails_replica :
    inactiveFailState.status = partition_status.PS_INACTIVE ∧
    (execute_mutation inactiveFailState inactiveFailMutation).localFailure = true ∧
    (execute_mutation inactiveFailState inactiveFailMutation).status =
      partition_status.PS_ERROR := by
  refine ⟨rfl, by decide, by decide⟩

/-- C3 amended: with status INACTIVE, `apply_mutation` is called iff
`app.last_committed_decree + 1 == mu.decree` and otherwise the commit is
silently skipped; no assertion can fire; `handle_local_failure` is invoked
exactly when the apply is reached and the storage engine returns a non-OK
error. -/
theorem inactive_commit_apply_iff_next (s : ExecState) (mu : ExecMutation)
    (h : s.status = partition_status.PS_INACTIVE) :
    ((execute_mutation s mu).applied = true ↔
      s.decrees.app_last_committed_decree + 1 = mu.decree) ∧
    (execute_mutation s mu).assertFailed = false ∧
    ((execute_mutation s mu).localFailure = true ↔
      (s.decrees.app_last_committed_decree + 1 = mu.decree ∧
       s.apply_result mu.decree ≠ ErrorCode.ERR_OK)) := by
  by_cases hd : s.decrees.app_last_committed_decree + 1 = mu.decree
  · by_cases he : s.apply_result mu.decree = ErrorCode.ERR_OK
    · simp [execute_mutation, h, hd, he, finishExec]
    · simp [execute_mutation, h, hd, he, finishExec]
  · simp [execute_mutation, h, hd, finishExec]

/-- C3 witness: the amended statement at a concrete INACTIVE replica whose
storage engine fails the apply at decree 1. -/
theorem inactive_commit_witness :
    inactiveFailState.status = partition_status.PS_INACTIVE ∧
    ((execute_mutation inactiveFailState inactiveFailMutation).applied = true ↔
      inactiveFailState.decrees.app_last_committed_decree + 1 =
        inactiveFailMutation.decree) :=
  ⟨rfl, (inactive_commit_apply_iff_next inactiveFailState inactiveFailMutation rfl).1⟩

/-- C4: after access control, the splitting guard, the role-membership check
and throttling, a non-backup read is rejected with `ERR_INVALID_STATE` and
never reaches the app whenever the replica is not PRIMARY or its committed
decree is below `last_prepare_decree_on_new_primary`; a backup read bypasses
both conditions, increments the backup-request counter, and reaches
`_app->on_request`. -/
theorem read_primary_gate_and_backup_bypass (s : ReadState) (req : ReadRequest)
    (it : Bool) (hacl : req.allowed = true) (hsplit : req.splitRejected = false)
    (hrole : ¬ (s.status = partition_status.PS_INACTIVE ∨
                s.status = partition_status.PS_POTENTIAL_SECONDARY))
    (hthr : it = true ∨ s.throttled = false) :
    (req.is_backup = false →
      (s.status ≠ partition_status.PS_PRIMARY ∨
       s.last_committed_decree < s.last_prepare_decree_on_new_primary) →
      on_client_read s req it =
        { action := ReadAction.replied ErrorCode.ERR_INVALID_STATE
          backupCounterIncremented := false }) ∧
    (req.is_backup = true →
      on_client_read s req it =
        { action := ReadAction.served, backupCounterIncremented := true }) := by
  have hthr2 : ¬ (it = false ∧ s.throttled = true) := by
    rcases hthr with h | h <;> simp [h]
  constructor
  · intro hb hcond
    rcases hcond with hcond | hcond
    · simp [on_client_read, hacl, hsplit, hrole, hthr2, hb, hcond]
    · by_cases hp : s.status = partition_status.PS_PRIMARY
      · simp [on_client_read, hacl, hsplit, hrole, hthr2, hb, hp, hcond]
      · simp [on_client_read, hacl, hsplit, hrole, hthr2, hb, hp]
  · intro hb
    simp [on_client_read, hacl, hsplit, hrole, hthr2, hb]

/-- C4 witness: on a PRIMARY whose committed decree 10 is below
`last_prepare_decree_on_new_primary = 12`, a backup read is served and the
backup-request counter increments. -/
theorem read_backup_bypass_witness :
    on_client_read stalePrimaryReadState backupReadRequest false =
      { action := ReadAction.served, backupCounterIncremented := true } :=
  (read_primary_gate_and_backup_bypass stalePrimaryReadState backupReadRequest false
    rfl rfl (by decide) (Or.inr rfl)).2 rfl

/-- C5: a read that passed access control and the splitting guard on an
INACTIVE or POTENTIAL_SECONDARY replica is answered `ERR_INVALID_STATE` with
no app call, regardless of backup status and of `ignore_throttling`. -/
theorem read_inactive_rejected (s : ReadState) (req : ReadRequest) (it : Bool)
    (hacl : req.allowed = true) (hsplit : req.splitRejected = false)
    (hrole : s.status = partition_status.PS_INACTIVE ∨
             s.status = partition_status.PS_POTENTIAL_SECONDARY) :
    on_client_read s req it =
      { action := ReadAction.replied ErrorCode.ERR_INVALID_STATE
        backupCounterIncremented := false } := by
  rcases hrole with h | h <;> simp [on_client_read, hacl, hsplit, h]

/-- C5 witness: a backup read on a throttled INACTIVE replica (with
throttling not ignored) is still rejected with `ERR_INVALID_STATE`. -/
theorem read_inactive_rejected_witness :
    on_client_read inactiveReadState backupReadRequest false =
      { action := ReadAction.replied ErrorCode.ERR_INVALID_STATE
        backupCounterIncremented := false } :=
  read_inactive_rejected inactiveReadState backupReadRequest false rfl rfl (Or.inl rfl)
